import Mathlib

/-!
Shallow embedding of the bitboard attack-pattern core
(`chess_bitboard_helpers.py` and `chess_board.py`).

Bitboards are modelled as natural numbers; every value produced by the
source is an unsigned 64-bit quantity, so the arithmetic wraps modulo
`2 ^ 64` exactly where the source converts through `np.uint64`.  The
numpy shift primitives guard the shift count: a shift count of 64 or
more yields 0 (`npy_lshift` / `npy_rshift` in numpy's C kernels), and a
negative Python integer converted to `np.uint64` wraps modulo `2 ^ 64`.
Square indices that the source manipulates as Python integers (which may
leave `[0, 63]` inside the ray loops) are modelled as `Int`, with the
Python `%` operator on a positive modulus matching `Int.emod`.
-/

namespace Chess

/-- The modulus of unsigned 64-bit arithmetic. -/
def U64 : Nat := 2 ^ 64

/-- Conversion of a Python integer to `np.uint64`: the value wraps modulo
`2 ^ 64` (numpy 1.x C-style cast, also used for negative arguments). -/
def toU64 (z : Int) : Nat := (z % (U64 : Int)).toNat

/-- numpy left shift on `uint64`: shift counts of 64 or more yield 0. -/
def npyShl (a b : Nat) : Nat := if b < 64 then (a <<< b) % U64 else 0

/-- numpy right shift on `uint64`: shift counts of 64 or more yield 0. -/
def npyShr (a b : Nat) : Nat := if b < 64 then a >>> b else 0

/-- Bitwise complement of an unsigned 64-bit value (`~` on `np.uint64`). -/
def unot (n : Nat) : Nat := (U64 - 1) ^^^ n

/-- Modelled from the spec: the constant `HOT` from the missing
`chess_constants` module, the unsigned 64-bit constant 1 used by the ray
functions as the bit being shifted into place. -/
def HOT : Nat := 1

/-- Modelled from the spec: `File.hexA` from the missing `chess_constants`
module, the bitmask of file A (squares 0, 8, ..., 56) under the rank-major
convention `square = rank * 8 + file`. -/
def hexA : Nat := 0x0101010101010101

/-- Modelled from the spec: `File.hexB`, the bitmask of file B. -/
def hexB : Nat := 0x0202020202020202

/-- Modelled from the spec: `File.hexG`, the bitmask of file G. -/
def hexG : Nat := 0x4040404040404040

/-- Modelled from the spec: `File.hexH`, the bitmask of file H. -/
def hexH : Nat := 0x8080808080808080

/-- Modelled from the spec: membership in the `File.A` square set of the
missing `chess_constants` module, i.e. the on-board squares of file A.
The ray loops test membership on indices that may have left the board,
for which membership is simply false. -/
def inFileA (z : Int) : Bool := 0 ≤ z && z ≤ 63 && z % 8 == 0

/-- Modelled from the spec: membership in the `File.H` square set of the
missing `chess_constants` module, i.e. the on-board squares of file H. -/
def inFileH (z : Int) : Bool := 0 ≤ z && z ≤ 63 && z % 8 == 7

/-- Modelled from the spec: membership in `File.A | File.B` (the knight
generator tests its origin square, always on the board, against this
union of the file A and file B square sets). -/
def inFilesAB (sq : Nat) : Bool := sq ≤ 63 && (sq % 8 == 0 || sq % 8 == 1)

/-- Modelled from the spec: membership in `File.G | File.H`. -/
def inFilesGH (sq : Nat) : Bool := sq ≤ 63 && (sq % 8 == 6 || sq % 8 == 7)

/-- The function `set_bit` from `chess_bitboard_helpers.py`: OR the single-bit mask
`np.uint64(1) << np.uint64(bit)` into the bitboard. -/
def set_bit (bitboard : Nat) (bit : Int) : Nat :=
  (bitboard ||| npyShl 1 (toU64 bit)) % U64

/-- The function `clear_bit` from `chess_bitboard_helpers.py`: AND with the complement
of the single-bit mask. -/
def clear_bit (bitboard : Nat) (bit : Int) : Nat :=
  bitboard &&& unot (npyShl 1 (toU64 bit))

/-- The function `get_south_ray`: OR a bit at `from_square + i` for
`i in range(0, -64, -8)`, then clear the origin bit. -/
def get_south_ray (bitboard : Nat) (from_square : Int) : Nat :=
  let bb := ([0, -8, -16, -24, -32, -40, -48, -56] : List Int).foldl
    (fun b i => b ||| set_bit b (from_square + i)) bitboard
  clear_bit bb from_square

/-- The function `get_north_ray`: OR a bit at `from_square + i` for
`i in range(0, 64, 8)`, then clear the origin bit. -/
def get_north_ray (bitboard : Nat) (from_square : Int) : Nat :=
  let bb := ([0, 8, 16, 24, 32, 40, 48, 56] : List Int).foldl
    (fun b i => b ||| set_bit b (from_square + i)) bitboard
  clear_bit bb from_square

/-- The `while not from_square % 8 == 0` loop of `get_west_ray`, stepping
by -1.  The fuel bounds the iteration count; the source loop takes at
most seven steps before the file index reaches 0. -/
def westLoop : Nat → Nat → Int → Nat × Int
  | 0, bb, s => (bb, s)
  | fuel + 1, bb, s =>
    if s % 8 == 0 then (bb, s)
    else westLoop fuel (bb ||| npyShl HOT (toU64 s)) (s - 1)

/-- The function `get_west_ray` from `chess_bitboard_helpers.py`. -/
def get_west_ray (bitboard : Nat) (from_square : Int) : Nat :=
  let bb :=
    if from_square % 8 == 0 then
      bitboard ||| npyShl HOT (toU64 from_square)
    else
      let p := westLoop 8 bitboard from_square
      p.1 ||| npyShl HOT (toU64 p.2)
  clear_bit bb from_square

/-- The `while not from_square % 8 == 0` loop of `get_east_ray`, stepping
by +1. -/
def eastLoop : Nat → Nat → Int → Nat × Int
  | 0, bb, s => (bb, s)
  | fuel + 1, bb, s =>
    if s % 8 == 0 then (bb, s)
    else eastLoop fuel (bb ||| npyShl HOT (toU64 s)) (s + 1)

/-- The function `get_east_ray` from `chess_bitboard_helpers.py`. -/
def get_east_ray (bitboard : Nat) (from_square : Int) : Nat :=
  let st :=
    if from_square % 8 == 0 then
      (bitboard ||| npyShl HOT (toU64 from_square), from_square + 1)
    else (bitboard, from_square)
  let p := eastLoop 8 st.1 st.2
  clear_bit p.1 from_square

/-- The `while not from_square % 8 == 0 and from_square not in File.H`
loop of `get_southeast_ray`, stepping by -7. -/
def seLoop : Nat → Nat → Int → Nat × Int
  | 0, bb, s => (bb, s)
  | fuel + 1, bb, s =>
    if s % 8 != 0 && !(inFileH s) then
      seLoop fuel (bb ||| npyShl HOT (toU64 s)) (s - 7)
    else (bb, s)

/-- The function `get_southeast_ray` from `chess_bitboard_helpers.py`: guarded first
step, guarded loop, one unconditional trailing OR, then clear the origin. -/
def get_southeast_ray (bitboard : Nat) (from_square : Int) : Nat :=
  let st :=
    if from_square % 8 == 0 && !(inFileH from_square) then
      (bitboard ||| npyShl HOT (toU64 from_square), from_square - 7)
    else (bitboard, from_square)
  let p := seLoop 16 st.1 st.2
  clear_bit (p.1 ||| npyShl HOT (toU64 p.2)) from_square

/-- The `while not from_square % 8 == 0 and from_square not in File.A`
loop of `get_northwest_ray`, stepping by +7. -/
def nwLoop : Nat → Nat → Int → Nat × Int
  | 0, bb, s => (bb, s)
  | fuel + 1, bb, s =>
    if s % 8 != 0 && !(inFileA s) then
      nwLoop fuel (bb ||| npyShl HOT (toU64 s)) (s + 7)
    else (bb, s)

/-- The function `get_northwest_ray` from `chess_bitboard_helpers.py`: guarded first
step, guarded loop, one unconditional trailing OR, then clear the origin. -/
def get_northwest_ray (bitboard : Nat) (from_square : Int) : Nat :=
  let st :=
    if from_square % 8 == 0 && !(inFileA from_square) then
      (bitboard ||| npyShl HOT (toU64 from_square), from_square + 7)
    else (bitboard, from_square)
  let p := nwLoop 16 st.1 st.2
  clear_bit (p.1 ||| npyShl HOT (toU64 p.2)) from_square

/-- The `while not from_square % 8 == 0` loop of `get_southwest_ray`,
stepping by -9. -/
def swLoop : Nat → Nat → Int → Nat × Int
  | 0, bb, s => (bb, s)
  | fuel + 1, bb, s =>
    if s % 8 == 0 then (bb, s)
    else swLoop fuel (bb ||| npyShl HOT (toU64 s)) (s - 9)

/-- The function `get_southwest_ray` from `chess_bitboard_helpers.py`: the file-A
branch sets only the origin bit; the other branch runs the loop and then
ORs the bit of the post-loop index. -/
def get_southwest_ray (bitboard : Nat) (from_square : Int) : Nat :=
  let bb :=
    if from_square % 8 == 0 then
      bitboard ||| npyShl HOT (toU64 from_square)
    else
      let p := swLoop 16 bitboard from_square
      p.1 ||| npyShl HOT (toU64 p.2)
  clear_bit bb from_square

/-- The `while not from_square % 8 == 0` loop of `get_northeast_ray`,
stepping by +9. -/
def neLoop : Nat → Nat → Int → Nat × Int
  | 0, bb, s => (bb, s)
  | fuel + 1, bb, s =>
    if s % 8 == 0 then (bb, s)
    else neLoop fuel (bb ||| npyShl HOT (toU64 s)) (s + 9)

/-- The function `get_northeast_ray` from `chess_bitboard_helpers.py`: guarded first
step, then the loop, with no trailing OR, then clear the origin. -/
def get_northeast_ray (bitboard : Nat) (from_square : Int) : Nat :=
  let st :=
    if from_square % 8 == 0 then
      (bitboard ||| npyShl HOT (toU64 from_square), from_square + 9)
    else (bitboard, from_square)
  let p := neLoop 16 st.1 st.2
  clear_bit p.1 from_square

/-- The function `gen_bishop_attack`: the four diagonal rays threaded through one
accumulator, with the origin bit cleared at the end. -/
def gen_bishop_attack (from_square : Nat) : Nat :=
  let attack_bb := get_northeast_ray 0 (from_square : Int)
  let attack_bb := get_southwest_ray attack_bb (from_square : Int)
  let attack_bb := get_northwest_ray attack_bb (from_square : Int)
  let attack_bb := get_southeast_ray attack_bb (from_square : Int)
  clear_bit attack_bb (from_square : Int)

/-- The function `gen_rook_attack_row`: the north and south rays with the origin bit
cleared (despite the name this is the file of the square). -/
def gen_rook_attack_row (square : Nat) : Nat :=
  let attack_bb := get_north_ray 0 (square : Int)
  let attack_bb := get_south_ray attack_bb (square : Int)
  clear_bit attack_bb (square : Int)

/-- The function `gen_rook_attack_file`: the east and west rays with the origin bit
cleared (despite the name this is the rank of the square). -/
def gen_rook_attack_file (square : Nat) : Nat :=
  let attack_bb := get_east_ray 0 (square : Int)
  let attack_bb := get_west_ray attack_bb (square : Int)
  clear_bit attack_bb (square : Int)

/-- The function `gen_queen_attack`: union of the bishop and the two rook components. -/
def gen_queen_attack (square : Nat) : Nat :=
  gen_bishop_attack square ||| gen_rook_attack_row square |||
    gen_rook_attack_file square

/-- The function `gen_knight_attack`: for each of the eight offsets, OR the offset bit
in (out-of-range offsets are no-ops through `np.uint64`), then apply the
file-edge masks keyed on the origin square after every iteration. -/
def gen_knight_attack (square : Nat) : Nat :=
  ([6, 10, 15, 17, -6, -10, -15, -17] : List Int).foldl
    (fun attack_bitboard shift =>
      let attack_bitboard :=
        attack_bitboard ||| set_bit attack_bitboard ((square : Int) + shift)
      let attack_bitboard :=
        if inFilesAB square then attack_bitboard &&& unot (hexG ||| hexH)
        else attack_bitboard
      if inFilesGH square then attack_bitboard &&& unot (hexA ||| hexB)
      else attack_bitboard)
    0

/-- The function `gen_king_attack`: vertical offsets unmasked, eastward offsets masked
against file A, westward offsets masked against file H. -/
def gen_king_attack (square : Nat) : Nat :=
  let attack_bb := ([8, -8] : List Int).foldl
    (fun bb i => bb ||| npyShl HOT (toU64 ((square : Int) + i))) 0
  let attack_bb := ([1, 9, -7] : List Int).foldl
    (fun bb i => bb ||| (npyShl HOT (toU64 ((square : Int) + i)) &&& unot hexA))
    attack_bb
  ([-1, -9, 7] : List Int).foldl
    (fun bb i => bb ||| (npyShl HOT (toU64 ((square : Int) + i)) &&& unot hexH))
    attack_bb

/-- The function `get_knight_squares`: the list of square indices in 0..63 whose bit is
set in the bitboard. -/
def get_knight_squares (bitboard : Nat) : List Nat :=
  (List.range 64).filter (fun square => bitboard &&& npyShl 1 square != 0)

/-- The function `make_knight_attack`: union of the per-square knight attacks over the
occupied squares. -/
def make_knight_attack (bitboard : Nat) : Nat :=
  (get_knight_squares bitboard).foldl
    (fun knight_attack square => knight_attack ||| gen_knight_attack square) 0

/-- The function `get_bishop_squares`: same enumeration as `get_knight_squares`. -/
def get_bishop_squares (bitboard : Nat) : List Nat :=
  (List.range 64).filter (fun square => bitboard &&& npyShl 1 square != 0)

/-- The function `make_bishop_attack`: union of the per-square bishop attacks over the
occupied squares. -/
def make_bishop_attack (bitboard : Nat) : Nat :=
  (get_bishop_squares bitboard).foldl
    (fun bishop_attack square => bishop_attack ||| gen_bishop_attack square) 0

/-- The function `get_rook_squares`: same enumeration as `get_knight_squares`. -/
def get_rook_squares (bitboard : Nat) : List Nat :=
  (List.range 64).filter (fun square => bitboard &&& npyShl 1 square != 0)

/-- The function `make_rook_attack`: union of the per-square file and row rook attacks
over the occupied squares. -/
def make_rook_attack (bitboard : Nat) : Nat :=
  (get_rook_squares bitboard).foldl
    (fun rook_attack square =>
      rook_attack ||| (gen_rook_attack_file square ||| gen_rook_attack_row square))
    0

/-- The function `get_queen_squares`: same enumeration as `get_knight_squares`. -/
def get_queen_squares (bitboard : Nat) : List Nat :=
  (List.range 64).filter (fun square => bitboard &&& npyShl 1 square != 0)

/-- The function `make_queen_attack`: union of the per-square queen attacks over the
occupied squares. -/
def make_queen_attack (bitboard : Nat) : Nat :=
  (get_queen_squares bitboard).foldl
    (fun queen_attack square => queen_attack ||| gen_queen_attack square) 0

/-- The function `get_king_squares`: same enumeration as `get_knight_squares`. -/
def get_king_squares (bitboard : Nat) : List Nat :=
  (List.range 64).filter (fun square => bitboard &&& npyShl 1 square != 0)

/-- The function `make_king_attack`: union of the per-square king attacks over the
occupied squares. -/
def make_king_attack (bitboard : Nat) : Nat :=
  (get_king_squares bitboard).foldl
    (fun king_attack square => king_attack ||| gen_king_attack square) 0

/-- File index (0 = a .. 7 = h) of a square under the rank-major
convention of the spec. -/
def fileOf (square : Nat) : Nat := square % 8

/-- Rank index (0..7) of a square under the rank-major convention. -/
def rankOf (square : Nat) : Nat := square / 8

/-- The true geometric ray from a square: the bits of the squares reached
by stepping `(df, dr)` in (file, rank) coordinates one to seven times
while staying on the board.  This is the specification-side definition of
an edge-stopping, non-wrapping ray. -/
def specRay (square : Nat) (df dr : Int) : Nat :=
  (List.range 7).foldl
    (fun acc j =>
      let k : Int := j + 1
      let f := (fileOf square : Int) + k * df
      let r := (rankOf square : Int) + k * dr
      if 0 ≤ f ∧ f ≤ 7 ∧ 0 ≤ r ∧ r ≤ 7 then acc ||| (1 <<< (r * 8 + f).toNat)
      else acc)
    0

/-- Specification-side set of squares strictly north of a square on the
same file: indices `square + 8 * k` that stay at most 63. -/
def northSpec (square : Nat) : Nat :=
  (List.range 8).foldl
    (fun acc k =>
      if 1 ≤ k ∧ square + 8 * k ≤ 63 then acc ||| (1 <<< (square + 8 * k))
      else acc)
    0

/-- Specification-side set of squares strictly south of a square on the
same file: indices `square - 8 * k` that stay at least 0. -/
def southSpec (square : Nat) : Nat :=
  (List.range 8).foldl
    (fun acc k =>
      if 1 ≤ k ∧ 8 * k ≤ square then acc ||| (1 <<< (square - 8 * k))
      else acc)
    0

/-- Specification-side true-diagonal mask of a square: every other
on-board square whose absolute rank difference equals its absolute file
difference. -/
def diagSpec (square : Nat) : Nat :=
  (List.range 64).foldl
    (fun acc t =>
      if t ≠ square ∧
          ((rankOf t : Int) - (rankOf square : Int)).natAbs =
            ((fileOf t : Int) - (fileOf square : Int)).natAbs then
        acc ||| (1 <<< t)
      else acc)
    0

/-- Number of set bits among the 64 board bits of a bitboard. -/
def countBits (n : Nat) : Nat := ((List.range 64).filter n.testBit).length

/-- Board property `white_pawn_east_attacks` from `chess_board.py`: the
white pawn occupancy shifted left by 9 with file A masked off. -/
def white_pawn_east_attacks (white_pawn_bitboard : Nat) : Nat :=
  npyShl white_pawn_bitboard 9 &&& unot hexA

/-- Board property `white_pawn_west_attacks`: the white pawn occupancy
shifted left by 7 with file H masked off. -/
def white_pawn_west_attacks (white_pawn_bitboard : Nat) : Nat :=
  npyShl white_pawn_bitboard 7 &&& unot hexH

/-- Board property `white_pawn_attacks`: union of the east and west
white pawn attacks. -/
def white_pawn_attacks (white_pawn_bitboard : Nat) : Nat :=
  white_pawn_east_attacks white_pawn_bitboard |||
    white_pawn_west_attacks white_pawn_bitboard

/-- Board property `black_pawn_east_attacks`: the black pawn occupancy
shifted right by 7 with file A masked off. -/
def black_pawn_east_attacks (black_pawn_bitboard : Nat) : Nat :=
  npyShr black_pawn_bitboard 7 &&& unot hexA

/-- Board property `black_pawn_west_attacks`: the black pawn occupancy
shifted right by 9 with file H masked off. -/
def black_pawn_west_attacks (black_pawn_bitboard : Nat) : Nat :=
  npyShr black_pawn_bitboard 9 &&& unot hexH

/-- Board property `black_pawn_attacks`: union of the east and west
black pawn attacks. -/
def black_pawn_attacks (black_pawn_bitboard : Nat) : Nat :=
  black_pawn_east_attacks black_pawn_bitboard |||
    black_pawn_west_attacks black_pawn_bitboard

/-- The white pawn attack mask exactly as the specification words it:
occupancy shifted left by 9 with file A masked off, unioned with
occupancy shifted left by 7 with file H masked off. -/
def whitePawnAttackFormula (occupancy : Nat) : Nat :=
  (npyShl occupancy 9 &&& unot hexA) ||| (npyShl occupancy 7 &&& unot hexH)

/-- The black pawn attack mask exactly as the specification words it:
occupancy shifted right by 7 with file A masked off, unioned with
occupancy shifted right by 9 with file H masked off. -/
def blackPawnAttackFormula (occupancy : Nat) : Nat :=
  (npyShr occupancy 7 &&& unot hexA) ||| (npyShr occupancy 9 &&& unot hexH)

/-- The values `Board.update_board` pulls from the external rules engine:
the two colour occupancies of `occupied_co` and the six piece-kind sets. -/
structure EngineState where
  black : Nat
  white : Nat
  pawns : Nat
  rooks : Nat
  knights : Nat
  bishops : Nat
  queens : Nat
  kings : Nat
deriving DecidableEq

/-- The adapter state written by `Board.update_board`: the twelve
per-kind occupancy bitboards and the ten aggregated attack bitboards. -/
structure Snapshot where
  black_pawn_bitboard : Nat
  black_rook_bitboard : Nat
  black_knight_bitboard : Nat
  black_bishop_bitboard : Nat
  black_queen_bitboard : Nat
  black_king_bitboard : Nat
  white_pawn_bitboard : Nat
  white_rook_bitboard : Nat
  white_knight_bitboard : Nat
  white_bishop_bitboard : Nat
  white_queen_bitboard : Nat
  white_king_bitboard : Nat
  white_knight_attacks_bitboard : Nat
  black_knight_attacks_bitboard : Nat
  white_bishop_attacks_bitboard : Nat
  black_bishop_attacks_bitboard : Nat
  white_rook_attacks_bitboard : Nat
  black_rook_attacks_bitboard : Nat
  white_queen_attacks_bitboard : Nat
  black_queen_attacks_bitboard : Nat
  white_king_attacks_bitboard : Nat
  black_king_attacks_bitboard : Nat
deriving DecidableEq

/-- The function `Board.update_board` from `chess_board.py`: masks the engine piece
sets with the colour occupancies to obtain the twelve occupancy
bitboards, then recomputes the ten aggregated attack bitboards from
them.  The previous adapter state is wholly overwritten; the source
performs no validation of the reported masks and has no error path. -/
def update_board (engine : EngineState) (_previous : Snapshot) : Snapshot :=
  let black_pawn := engine.black &&& engine.pawns
  let black_rook := engine.black &&& engine.rooks
  let black_knight := engine.black &&& engine.knights
  let black_bishop := engine.black &&& engine.bishops
  let black_queen := engine.black &&& engine.queens
  let black_king := engine.black &&& engine.kings
  let white_pawn := engine.white &&& engine.pawns
  let white_rook := engine.white &&& engine.rooks
  let white_knight := engine.white &&& engine.knights
  let white_bishop := engine.white &&& engine.bishops
  let white_queen := engine.white &&& engine.queens
  let white_king := engine.white &&& engine.kings
  { black_pawn_bitboard := black_pawn
    black_rook_bitboard := black_rook
    black_knight_bitboard := black_knight
    black_bishop_bitboard := black_bishop
    black_queen_bitboard := black_queen
    black_king_bitboard := black_king
    white_pawn_bitboard := white_pawn
    white_rook_bitboard := white_rook
    white_knight_bitboard := white_knight
    white_bishop_bitboard := white_bishop
    white_queen_bitboard := white_queen
    white_king_bitboard := white_king
    white_knight_attacks_bitboard := make_knight_attack white_knight
    black_knight_attacks_bitboard := make_knight_attack black_knight
    white_bishop_attacks_bitboard := make_bishop_attack white_bishop
    black_bishop_attacks_bitboard := make_bishop_attack black_bishop
    white_rook_attacks_bitboard := make_rook_attack white_rook
    black_rook_attacks_bitboard := make_rook_attack black_rook
    white_queen_attacks_bitboard := make_queen_attack white_queen
    black_queen_attacks_bitboard := make_queen_attack black_queen
    white_king_attacks_bitboard := make_king_attack white_king
    black_king_attacks_bitboard := make_king_attack black_king }

/-- The snapshot an engine report deterministically produces under
`update_board`, written out without reference to any previous state. -/
def derived_snapshot (engine : EngineState) : Snapshot :=
  { black_pawn_bitboard := engine.black &&& engine.pawns
    black_rook_bitboard := engine.black &&& engine.rooks
    black_knight_bitboard := engine.black &&& engine.knights
    black_bishop_bitboard := engine.black &&& engine.bishops
    black_queen_bitboard := engine.black &&& engine.queens
    black_king_bitboard := engine.black &&& engine.kings
    white_pawn_bitboard := engine.white &&& engine.pawns
    white_rook_bitboard := engine.white &&& engine.rooks
    white_knight_bitboard := engine.white &&& engine.knights
    white_bishop_bitboard := engine.white &&& engine.bishops
    white_queen_bitboard := engine.white &&& engine.queens
    white_king_bitboard := engine.white &&& engine.kings
    white_knight_attacks_bitboard := make_knight_attack (engine.white &&& engine.knights)
    black_knight_attacks_bitboard := make_knight_attack (engine.black &&& engine.knights)
    white_bishop_attacks_bitboard := make_bishop_attack (engine.white &&& engine.bishops)
    black_bishop_attacks_bitboard := make_bishop_attack (engine.black &&& engine.bishops)
    white_rook_attacks_bitboard := make_rook_attack (engine.white &&& engine.rooks)
    black_rook_attacks_bitboard := make_rook_attack (engine.black &&& engine.rooks)
    white_queen_attacks_bitboard := make_queen_attack (engine.white &&& engine.queens)
    black_queen_attacks_bitboard := make_queen_attack (engine.black &&& engine.queens)
    white_king_attacks_bitboard := make_king_attack (engine.white &&& engine.kings)
    black_king_attacks_bitboard := make_king_attack (engine.black &&& engine.kings) }

/-- An engine report in which black pawns and black rooks both claim
square 0: the per-colour occupancy masks it induces are not pairwise
disjoint. -/
def overlapReport : EngineState :=
  { black := 1, white := 0, pawns := 1, rooks := 1, knights := 0,
    bishops := 0, queens := 0, kings := 0 }

/-- An all-empty previous adapter snapshot. -/
def emptySnapshot : Snapshot :=
  { black_pawn_bitboard := 0, black_rook_bitboard := 0,
    black_knight_bitboard := 0, black_bishop_bitboard := 0,
    black_queen_bitboard := 0, black_king_bitboard := 0,
    white_pawn_bitboard := 0, white_rook_bitboard := 0,
    white_knight_bitboard := 0, white_bishop_bitboard := 0,
    white_queen_bitboard := 0, white_king_bitboard := 0,
    white_knight_attacks_bitboard := 0, black_knight_attacks_bitboard := 0,
    white_bishop_attacks_bitboard := 0, black_bishop_attacks_bitboard := 0,
    white_rook_attacks_bitboard := 0, black_rook_attacks_bitboard := 0,
    white_queen_attacks_bitboard := 0, black_queen_attacks_bitboard := 0,
    white_king_attacks_bitboard := 0, black_king_attacks_bitboard := 0 }

/-- The occupied-square enumeration-and-union pattern shared by the five
`make_*_attack` aggregators, parameterised by the per-square generator. -/
def bigOr (gen : Nat → Nat) (n bitboard : Nat) : Nat :=
  ((List.range n).filter (fun square => bitboard &&& npyShl 1 square != 0)).foldl
    (fun acc square => acc ||| gen square) 0

/-- C1: Ray casting never wraps around board edges.  For every origin
square, each of the eight ray functions (on an empty accumulator) returns
exactly the bits of the true geometric ray from that origin — on-board
squares only, stopping at the file-H edge for the east-going directions
and at the file-A edge for the west-going directions.  In particular,
from corner square 0 the northeast ray contains exactly 7 squares and the
south, west, southwest, southeast and northwest rays are empty. -/
theorem ray_casting_never_wraps :
    (∀ s : Fin 64,
      get_east_ray 0 ((s : Nat) : Int) = specRay s 1 0 ∧
      get_west_ray 0 ((s : Nat) : Int) = specRay s (-1) 0 ∧
      get_north_ray 0 ((s : Nat) : Int) = specRay s 0 1 ∧
      get_south_ray 0 ((s : Nat) : Int) = specRay s 0 (-1) ∧
      get_northeast_ray 0 ((s : Nat) : Int) = specRay s 1 1 ∧
      get_northwest_ray 0 ((s : Nat) : Int) = specRay s (-1) 1 ∧
      get_southeast_ray 0 ((s : Nat) : Int) = specRay s 1 (-1) ∧
      get_southwest_ray 0 ((s : Nat) : Int) = specRay s (-1) (-1)) ∧
    countBits (get_northeast_ray 0 0) = 7 ∧
    get_south_ray 0 0 = 0 ∧ get_west_ray 0 0 = 0 ∧
    get_southwest_ray 0 0 = 0 ∧ get_southeast_ray 0 0 = 0 ∧
    get_northwest_ray 0 0 = 0 := by
  decide

/-- C2: For every origin square, `get_north_ray` (on an empty
accumulator) returns exactly the squares strictly north of the origin on
the same file and `get_south_ray` exactly the squares strictly south of
it; no bit outside the board remains in either result. -/
theorem north_south_rays_exact :
    ∀ s : Fin 64,
      get_north_ray 0 ((s : Nat) : Int) = northSpec s ∧
      get_south_ray 0 ((s : Nat) : Int) = southSpec s := by
  decide

/-- C4: The knight attack mask for corner square 0 is exactly the
bitboard with bits 10 and 17 set. -/
theorem knight_attack_corner :
    gen_knight_attack 0 = (1 <<< 10 ||| 1 <<< 17) := by
  decide

/-- C5: The king attack mask for corner square 0 is exactly the bitboard
with bits 1, 8 and 9 set. -/
theorem king_attack_corner :
    gen_king_attack 0 = (1 <<< 1 ||| 1 <<< 8 ||| 1 <<< 9) := by
  decide

/-- C6: For every square, the union of the per-square rook attack
components and the per-square bishop attack equals the per-square queen
attack, and the rook and bishop operands are disjoint. -/
theorem queen_is_rook_union_bishop :
    ∀ s : Fin 64,
      gen_rook_attack_row s ||| gen_rook_attack_file s ||| gen_bishop_attack s
          = gen_queen_attack s ∧
      (gen_rook_attack_row s ||| gen_rook_attack_file s) &&& gen_bishop_attack s
          = 0 := by
  decide

/-- C9: For every square, the per-square bishop attack mask is exactly
the true-diagonal mask of the square: it never contains the square
itself, and a square is a member precisely when it is on the board with
equal absolute rank and file differences from the origin. -/
theorem bishop_attack_true_diagonal :
    ∀ s : Fin 64, gen_bishop_attack s = diagSpec s := by
  decide

/-- Converting an on-range natural number through `np.uint64` is the
identity. -/
theorem toU64_ofNat (n : Nat) (h : n < U64) : toU64 (n : Int) = n := by
  unfold toU64
  rw [Int.emod_eq_of_lt (by positivity) (by exact_mod_cast h)]
  simp

/-- The single-bit mask of an on-board index is the corresponding power
of two. -/
theorem npyShl_one (s : Nat) (h : s < 64) : npyShl 1 s = 2 ^ s := by
  unfold npyShl U64
  rw [if_pos h, Nat.one_shiftLeft, Nat.mod_eq_of_lt]
  exact Nat.pow_lt_pow_right (by norm_num) h

/-- Bits of the all-ones 64-bit mask. -/
theorem testBit_U64_sub_one (j : Nat) : (U64 - 1).testBit j = decide (j < 64) := by
  unfold U64
  exact Nat.testBit_two_pow_sub_one 64 j

/-- Bits of a value reduced modulo `2 ^ 64`. -/
theorem testBit_mod_U64 (x j : Nat) :
    (x % U64).testBit j = (decide (j < 64) && x.testBit j) := by
  unfold U64
  exact Nat.testBit_mod_two_pow x 64 j

/-- C7: Setting and then clearing the same on-board bit of any 64-bit
bitboard leaves exactly the bitboard with that bit forced off, i.e.
`clear_bit (set_bit bb s) s = bb &&& ~(1 <<< s)`. -/
theorem set_clear_roundtrip (bb : Nat) (s : Fin 64) (h : bb < U64) :
    clear_bit (set_bit bb ((s : Nat) : Int)) ((s : Nat) : Int)
      = bb &&& unot (1 <<< (s : Nat)) := by
  have hs : (s : Nat) < 64 := s.isLt
  have hsU : (s : Nat) < U64 := lt_trans hs (by norm_num [U64])
  unfold set_bit clear_bit
  rw [toU64_ofNat _ hsU, npyShl_one _ hs, Nat.one_shiftLeft]
  apply Nat.eq_of_testBit_eq
  intro i
  simp only [unot, Nat.testBit_and, Nat.testBit_xor, Nat.testBit_or,
    testBit_mod_U64, testBit_U64_sub_one]
  by_cases hi : i < 64
  · by_cases hsi : (s : Nat) = i
    · subst hsi
      simp [hi, Nat.testBit_two_pow_self]
    · simp [hi, Nat.testBit_two_pow_of_ne hsi]
  · have hbb : bb.testBit i = false :=
      Nat.testBit_lt_two_pow
        (lt_of_lt_of_le h (Nat.pow_le_pow_right (by norm_num) (le_of_not_lt hi)))
    simp [hi, hbb]

/-- Witness for C7 at a concrete bitboard and square. -/
theorem set_clear_roundtrip_witness :
    (12345 : Nat) < U64 ∧
    clear_bit (set_bit 12345 ((7 : Nat) : Int)) ((7 : Nat) : Int)
      = 12345 &&& unot (1 <<< 7) :=
  ⟨by decide, set_clear_roundtrip 12345 ⟨7, by decide⟩ (by decide)⟩

/-- C8: For every pawn occupancy bitboard, the white pawn attack mask of
the board adapter equals the shifted-and-masked formula of the
specification, and likewise for the black pawn attack mask. -/
theorem pawn_attack_masks (occupancy : Nat) :
    white_pawn_attacks occupancy = whitePawnAttackFormula occupancy ∧
    black_pawn_attacks occupancy = blackPawnAttackFormula occupancy :=
  ⟨rfl, rfl⟩

/-- C3 counterexample: for an engine report in which black pawns and
black rooks both claim square 0 (the reported black occupancy masks are
not pairwise disjoint, their intersection being the nonzero bitboard 1),
`update_board` neither signals an integrity error nor retains the
previous all-empty snapshot: it returns a replaced snapshot whose black
pawn field is 1 where the retained value would have been 0. -/
theorem update_board_overlap_counterexample :
    (update_board overlapReport emptySnapshot).black_pawn_bitboard &&&
        (update_board overlapReport emptySnapshot).black_rook_bitboard = 1 ∧
    (update_board overlapReport emptySnapshot).black_pawn_bitboard = 1 ∧
    emptySnapshot.black_pawn_bitboard = 0 := by
  decide

/-- C3 amended: `update_board` performs no disjointness validation and
has no failure path: for every engine report, overlapping or not, and
every previous adapter state, synchronization succeeds and the snapshot
is replaced by the masks derived from the report. -/
theorem update_board_no_disjointness_check
    (engine : EngineState) (previous : Snapshot) :
    update_board engine previous = derived_snapshot engine := rfl

/-- Folding bit-union over a list starting from an accumulator equals the
accumulator unioned with the fold from zero. -/
theorem foldl_lor_init (gen : Nat → Nat) (l : List Nat) (a : Nat) :
    l.foldl (fun acc sq => acc ||| gen sq) a
      = a ||| l.foldl (fun acc sq => acc ||| gen sq) 0 := by
  induction l generalizing a with
  | nil => simp
  | cons x xs ih =>
    simp only [List.foldl_cons]
    rw [ih (a ||| gen x), ih (0 ||| gen x), Nat.zero_or, Nat.or_assoc]

/-- A bit-union is zero exactly when both operands are. -/
theorem lor_eq_zero (a b : Nat) : a ||| b = 0 ↔ a = 0 ∧ b = 0 := by
  constructor
  · intro h
    have hb : ∀ i, a.testBit i = false ∧ b.testBit i = false := by
      intro i
      have h2 := congrArg (fun x => Nat.testBit x i) h
      simp [Nat.testBit_or] at h2
      exact h2
    exact ⟨Nat.eq_of_testBit_eq (fun i => by simp [(hb i).1]),
      Nat.eq_of_testBit_eq (fun i => by simp [(hb i).2])⟩
  · rintro ⟨rfl, rfl⟩
    rfl

/-- The occupancy test of a union splits into the disjunction of the
individual occupancy tests. -/
theorem land_lor_ne (a b m : Nat) :
    ((a ||| b) &&& m != 0) = ((a &&& m != 0) || (b &&& m != 0)) := by
  rw [Nat.and_distrib_right]
  by_cases ha : a &&& m = 0
  · rw [ha]
    simp
  · by_cases hb : b &&& m = 0
    · rw [hb]
      simp
    · have h3 : a &&& m ||| b &&& m ≠ 0 := by
        intro hc
        exact ha ((lor_eq_zero _ _).mp hc).1
      rw [Bool.eq_iff_iff]
      simp only [bne_iff_ne, ne_eq, Bool.or_eq_true]
      exact ⟨fun _ => Or.inl ha, fun _ => h3⟩

/-- Interchange law for nested bit-unions. -/
theorem or_interchange (A B X Y : Nat) :
    (A ||| B) ||| (X ||| Y) = (A ||| X) ||| (B ||| Y) := by
  apply Nat.eq_of_testBit_eq
  intro i
  simp only [Nat.testBit_or]
  cases hA : A.testBit i <;> cases hB : B.testBit i <;> cases hX : X.testBit i <;>
    cases hY : Y.testBit i <;> rfl

/-- Unfolding one step of the occupied-square enumeration. -/
theorem bigOr_succ (gen : Nat → Nat) (n bb : Nat) :
    bigOr gen (n + 1) bb
      = bigOr gen n bb ||| (if bb &&& npyShl 1 n != 0 then gen n else 0) := by
  unfold bigOr
  rw [List.range_succ, List.filter_append, List.foldl_append]
  by_cases h : bb &&& npyShl 1 n != 0
  · simp [h]
  · simp [h]

/-- A guarded summand over a disjunction splits into a union of guarded
summands. -/
theorem if_or_split (c₁ c₂ : Bool) (g : Nat) :
    (if (c₁ || c₂) then g else 0) = (if c₁ then g else 0) ||| (if c₂ then g else 0) := by
  cases c₁ <;> cases c₂ <;> simp

/-- The enumeration-and-union pattern is a union homomorphism in the
occupancy argument. -/
theorem bigOr_lor (gen : Nat → Nat) (n a b : Nat) :
    bigOr gen n (a ||| b) = bigOr gen n a ||| bigOr gen n b := by
  induction n with
  | zero => simp [bigOr]
  | succ n ih =>
    rw [bigOr_succ, bigOr_succ, bigOr_succ, ih, land_lor_ne, if_or_split,
      or_interchange]

/-- The function `make_knight_attack` is the enumeration-and-union pattern applied to
the knight generator. -/
theorem make_knight_attack_eq (bb : Nat) :
    make_knight_attack bb = bigOr gen_knight_attack 64 bb := rfl

/-- The function `make_bishop_attack` is the enumeration-and-union pattern applied to
the bishop generator. -/
theorem make_bishop_attack_eq (bb : Nat) :
    make_bishop_attack bb = bigOr gen_bishop_attack 64 bb := rfl

/-- The function `make_rook_attack` is the enumeration-and-union pattern applied to
the union of the two rook components. -/
theorem make_rook_attack_eq (bb : Nat) :
    make_rook_attack bb
      = bigOr (fun square => gen_rook_attack_file square ||| gen_rook_attack_row square)
          64 bb := rfl

/-- The function `make_queen_attack` is the enumeration-and-union pattern applied to
the queen generator. -/
theorem make_queen_attack_eq (bb : Nat) :
    make_queen_attack bb = bigOr gen_queen_attack 64 bb := rfl

/-- The function `make_king_attack` is the enumeration-and-union pattern applied to
the king generator. -/
theorem make_king_attack_eq (bb : Nat) :
    make_king_attack bb = bigOr gen_king_attack 64 bb := rfl

/-- C10: Each of the five attack aggregators is a union homomorphism on
occupancy bitboards, and maps the empty occupancy to the empty attack
mask. -/
theorem aggregators_union_hom :
    (∀ a b : Nat,
      make_knight_attack (a ||| b) = make_knight_attack a ||| make_knight_attack b ∧
      make_bishop_attack (a ||| b) = make_bishop_attack a ||| make_bishop_attack b ∧
      make_rook_attack (a ||| b) = make_rook_attack a ||| make_rook_attack b ∧
      make_queen_attack (a ||| b) = make_queen_attack a ||| make_queen_attack b ∧
      make_king_attack (a ||| b) = make_king_attack a ||| make_king_attack b) ∧
    make_knight_attack 0 = 0 ∧ make_bishop_attack 0 = 0 ∧
    make_rook_attack 0 = 0 ∧ make_queen_attack 0 = 0 ∧ make_king_attack 0 = 0 := by
  refine ⟨fun a b => ⟨?_, ?_, ?_, ?_, ?_⟩, by decide, by decide, by decide,
    by decide, by decide⟩
  · rw [make_knight_attack_eq, make_knight_attack_eq, make_knight_attack_eq,
      bigOr_lor]
  · rw [make_bishop_attack_eq, make_bishop_attack_eq, make_bishop_attack_eq,
      bigOr_lor]
  · rw [make_rook_attack_eq, make_rook_attack_eq, make_rook_attack_eq, bigOr_lor]
  · rw [make_queen_attack_eq, make_queen_attack_eq, make_queen_attack_eq,
      bigOr_lor]
  · rw [make_king_attack_eq, make_king_attack_eq, make_king_attack_eq, bigOr_lor]

end Chess
